import Mathlib

/-! Verification development for the apihub API gateway.

The definitions below are a shallow embedding of the Go sources:
byte strings become `List Nat` (each entry a byte value), Go strings at the
transport layer become `List Char`, instants become `Nat`, fallible code
returns `Option` or a small result type, and the SQLite tables become lists
of records with the repository queries embedded as list functions. -/

namespace ApiHub

/-- Go strings are byte slices; at the service layer the embedding uses
`List Char` (the keys and headers involved are ASCII, where char count and
byte count coincide). -/
abbrev GoStr := List Char

/-! Crypto primitives, from internal/auth/crypto (the file also present as a
segment of internal/auth/apikey/middleware.go). Bytes are `List Nat`. -/

/-- pkcs7Padding: append `blockSize - len % blockSize` copies of that count. -/
def pkcs7Padding (data : List Nat) (blockSize : Nat) : List Nat :=
  let padding := blockSize - data.length % blockSize
  data ++ List.replicate padding padding

/-- pkcs7UnPadding: read the last byte as the pad length; reject empty input
and a pad length exceeding the data length; otherwise drop that many bytes. -/
def pkcs7UnPadding (data : List Nat) : Option (List Nat) :=
  match data.getLast? with
  | none => none
  | some padding =>
    if data.length < padding then none
    else some (data.take (data.length - padding))

/-- Split a byte string into 16-byte blocks (the AES block size used by the
ECB loops in Encrypt and Decrypt). -/
def chunks16 : List Nat → List (List Nat)
  | [] => []
  | x :: xs => ((x :: xs).take 16) :: chunks16 ((x :: xs).drop 16)
termination_by l => l.length
decreasing_by simp; omega

/-- The ECB encryption loop of AESCryptoService.Encrypt: pad, split into
16-byte blocks, apply the AES block function `E` to each block. The AES
block permutation itself (crypto/aes) is kept abstract as `E`. -/
def ecbEncryptBytes (E : List Nat → List Nat) (plain : List Nat) : List Nat :=
  ((chunks16 (pkcs7Padding plain 16)).map E).flatten

/-- The ECB decryption loop of AESCryptoService.Decrypt, with the AES
block inverse abstract as `D`. -/
def ecbDecryptBytes (D : List Nat → List Nat) (data : List Nat) : List Nat :=
  ((chunks16 data).map D).flatten

/-- base64.StdEncoding character map (sextet to ASCII code). -/
def b64encChar (s : Nat) : Nat :=
  if s < 26 then 65 + s
  else if s < 52 then 97 + (s - 26)
  else if s < 62 then 48 + (s - 52)
  else if s = 62 then 43
  else 47

/-- base64.StdEncoding reverse character map (ASCII code to sextet). -/
def b64decChar (c : Nat) : Option Nat :=
  if 65 ≤ c ∧ c ≤ 90 then some (c - 65)
  else if 97 ≤ c ∧ c ≤ 122 then some (26 + (c - 97))
  else if 48 ≤ c ∧ c ≤ 57 then some (52 + (c - 48))
  else if c = 43 then some 62
  else if c = 47 then some 63
  else none

/-- base64.StdEncoding.EncodeToString on byte values, producing ASCII codes;
61 is the pad character. -/
def b64encode : List Nat → List Nat
  | [] => []
  | [b1] => [b64encChar (b1 / 4), b64encChar (b1 % 4 * 16), 61, 61]
  | [b1, b2] =>
    [b64encChar (b1 / 4), b64encChar (b1 % 4 * 16 + b2 / 16), b64encChar (b2 % 16 * 4), 61]
  | b1 :: b2 :: b3 :: rest =>
    b64encChar (b1 / 4) :: b64encChar (b1 % 4 * 16 + b2 / 16) ::
      b64encChar (b2 % 16 * 4 + b3 / 64) :: b64encChar (b3 % 64) :: b64encode rest

/-- base64.StdEncoding.DecodeString: four-character groups, with the pad
character 61 allowed only in the final group. -/
def b64decode : List Nat → Option (List Nat)
  | [] => some []
  | c1 :: c2 :: c3 :: c4 :: rest =>
    match b64decChar c1, b64decChar c2 with
    | some s1, some s2 =>
      if c3 = 61 then
        if c4 = 61 ∧ rest = [] then some [s1 * 4 + s2 / 16] else none
      else
        match b64decChar c3 with
        | some s3 =>
          if c4 = 61 then
            if rest = [] then some [s1 * 4 + s2 / 16, s2 % 16 * 16 + s3 / 4] else none
          else
            match b64decChar c4 with
            | some s4 =>
              match b64decode rest with
              | some bs =>
                some ((s1 * 4 + s2 / 16) :: (s2 % 16 * 16 + s3 / 4) :: (s3 % 4 * 64 + s4) :: bs)
              | none => none
            | none => none
        | none => none
    | _, _ => none
  | _ => none

/-- AESCryptoService.Encrypt, ECB implementation: reject the empty plaintext,
otherwise pad, encrypt block by block, and base64-encode. The `entropy`
stream models crypto/rand; this implementation never reads it. -/
def ecbEncrypt (E : List Nat → List Nat) (plaintext : List Nat) (entropy : List Nat) :
    Option (List Nat) :=
  if plaintext = [] then none
  else some (b64encode (ecbEncryptBytes E plaintext))

/-- AESCryptoService.Decrypt, ECB implementation: reject the empty
ciphertext, base64-decode, reject data whose length is not a multiple of the
block size, decrypt block by block and remove the padding. -/
def ecbDecrypt (D : List Nat → List Nat) (ciphertext : List Nat) : Option (List Nat) :=
  if ciphertext = [] then none
  else
    match b64decode ciphertext with
    | none => none
    | some data =>
      if data.length % 16 = 0 then pkcs7UnPadding (ecbDecryptBytes D data)
      else none

/-- AESCryptoService.Encrypt, GCM implementation: reject the empty plaintext,
draw a fresh 12-byte nonce from the entropy stream (crypto/rand), and call
gcm.Seal with dst = nonce, which prepends the nonce to the sealed body. The
AES-CTR/GHASH body produced by cipher.NewGCM is kept abstract as
`sealBody`. -/
def gcmEncrypt (sealBody : List Nat → List Nat → List Nat)
    (plaintext : List Nat) (entropy : List Nat) : Option (List Nat) :=
  if plaintext = [] then none
  else
    let nonce := entropy.take 12
    some (b64encode (nonce ++ sealBody nonce plaintext))

/-! Shared map helpers: Go maps and keyed SQL rows become association lists;
`setKey` has Go map-assignment semantics (replace or append). -/

/-- Lookup in an association list (Go map read / SQL select by unique key). -/
def lookupKey {κ β : Type} [DecidableEq κ] : List (κ × β) → κ → Option β
  | [], _ => none
  | (k', v) :: rest, k => if k' = k then some v else lookupKey rest k

/-- Go map assignment: replace the binding for `k`, or append one. -/
def setKey {κ β : Type} [DecidableEq κ] : List (κ × β) → κ → β → List (κ × β)
  | [], k, v => [(k, v)]
  | (k', v') :: rest, k, v =>
    if k' = k then (k, v) :: rest else (k', v') :: setKey rest k v

/-! Data model, from internal/model. -/

/-- model.ServiceDefinition (internal/model/user.go). `defaultLimit` is the
daily quota limit (-1 = unlimited), `status` is 1 for enabled. -/
structure ServiceDefinition where
  id : Nat
  serviceName : GoStr
  description : GoStr
  defaultLimit : Int
  status : Nat
  allowAnonymous : Bool
  rateLimit : Int
  quotaCost : Int
deriving DecidableEq, Repr

/-- model.ServiceConfig: the in-memory registration config. -/
structure ServiceConfig where
  allowAnonymous : Bool
  rateLimit : Int
  quotaCost : Int
  description : GoStr
deriving DecidableEq, Repr

/-- model.APIKey as stored in the api_keys table: `apiKey` holds the
ciphertext at rest; `status` is 1 for active. -/
structure APIKeyRec where
  id : Nat
  userID : Nat
  keyName : GoStr
  apiKey : GoStr
  status : Nat
  expiresAt : Option Nat
deriving DecidableEq, Repr

/-- model.ServiceQuota: one row of service_quotas. -/
structure QuotaRec where
  userID : Nat
  serviceName : GoStr
  timeWindow : GoStr
  usage : Int
  limitValue : Int
  resetTime : Nat
deriving DecidableEq, Repr

/-- model.AccessLog: one row of access_logs. -/
structure AccessLogRec where
  apiKeyID : Nat
  userID : Nat
  serviceName : GoStr
  endpoint : GoStr
  status : Nat
  cost : Int
deriving DecidableEq, Repr

/-- jwt.CustomClaims: operator id, name, role plus the registered claims the
embedding needs (issued-at, expiry, not-before, as instants). -/
structure TokenClaims where
  userID : Nat
  username : GoStr
  role : GoStr
  iat : Nat
  exp : Nat
  nbf : Nat
deriving DecidableEq, Repr

/-- The persistent side tables touched by the invocation pipeline. -/
structure World where
  quotas : List QuotaRec
  logs : List AccessLogRec
deriving DecidableEq, Repr

/-- The response envelope as far as the claims observe it: HTTP status and
envelope code (model/response.go code table). -/
structure Response where
  status : Nat
  code : Nat
deriving DecidableEq, Repr

/-! Quota repository, from internal/store/sqlite/quota_repository.go. -/

/-- QuotaRepository.GetByUserAndService: select by (user, service, window). -/
def quotaLookup : List QuotaRec → Nat → GoStr → GoStr → Option QuotaRec
  | [], _, _, _ => none
  | q :: qs, uid, sname, tw =>
    if q.userID = uid ∧ q.serviceName = sname ∧ q.timeWindow = tw then some q
    else quotaLookup qs uid sname tw

/-- QuotaRepository.IncrementUsage: the single UPDATE statement adding `cost`
to usage on every row matching (user, service, window). -/
def quotaIncrement : List QuotaRec → Nat → GoStr → GoStr → Int → List QuotaRec
  | [], _, _, _, _ => []
  | q :: qs, uid, sname, tw, cost =>
    if q.userID = uid ∧ q.serviceName = sname ∧ q.timeWindow = tw then
      { q with usage := q.usage + cost } :: quotaIncrement qs uid sname tw cost
    else q :: quotaIncrement qs uid sname tw cost

/-! Machine-key validation, from internal/auth/apikey/apikey.go. The
symmetric cipher is abstracted to a function `enc` from cleartext to
ciphertext (`none` on failure); its deterministic byte-level ECB embedding
is `ecbEncrypt` above. -/

/-- Outcome of APIKeyService.ValidateAPIKey: a record, an error (the
middleware turns every error into 401 unauthorized), or a run-time fault
(slice-bounds panic). -/
inductive VResult where
  | ok (k : APIKeyRec)
  | err (msg : GoStr)
  | fault
deriving DecidableEq, Repr

/-- APIKeyRepository.GetByKey: select the row whose encrypted api_key column
equals the presented ciphertext. -/
def apiKeyGetByKey : List APIKeyRec → GoStr → Option APIKeyRec
  | [], _ => none
  | r :: rs, key => if r.apiKey = key then some r else apiKeyGetByKey rs key

/-- The expiry test of ValidateAPIKey: ExpiresAt is set and now is after
it. -/
def isExpired (expiresAt : Option Nat) (now : Nat) : Bool :=
  match expiresAt with
  | some t => decide (t < now)
  | none => false

/-- APIKeyService.ValidateAPIKey. Order as in the source: empty check; the
debug print slices keyString[:4], which faults when 0 < length < 4; encrypt
the presented cleartext; look up by ciphertext equality; check status;
check expiry; on success return the record with the cleartext substituted
for the ciphertext. -/
def validateAPIKey (enc : GoStr → Option GoStr) (rows : List APIKeyRec)
    (now : Nat) (keyString : GoStr) : VResult :=
  if keyString = [] then .err "api key is empty".toList
  else if keyString.length < 4 then .fault
  else
    match enc keyString with
    | none => .err "encrypt failed".toList
    | some encKey =>
      match apiKeyGetByKey rows encKey with
      | none => .err "not found".toList
      | some rec =>
        if rec.status ≠ 1 then .err "not active".toList
        else if isExpired rec.expiresAt now then .err "expired".toList
        else .ok { rec with apiKey := keyString }

/-! Token service, from internal/auth/jwt/jwt.go. The jwt library's parse
(signature and algorithm verification) is abstracted to a function `parse`
returning claims only for well-signed tokens of the expected algorithm. -/

/-- Modelled from the spec: the revocation cache (internal/auth/cache is not
under src/). A blacklist maps a token to the instant its entry expires; the
cache reports a hit while now has not passed that instant, and the TTL sweep
removes entries afterwards ("expired revocations vanish through the cache's
own TTL sweep"). -/
def isBlacklisted (bl : List (GoStr × Nat)) (tok : GoStr) (now : Nat) : Bool :=
  match lookupKey bl tok with
  | some e => decide (now ≤ e)
  | none => false

/-- JWTService.ValidateToken: reject blacklisted tokens, then parse; the
library validates expiry (valid while now is before exp) and not-before
(valid once nbf is not after now). -/
def validateToken (bl : List (GoStr × Nat)) (parse : GoStr → Option TokenClaims)
    (now : Nat) (tok : GoStr) : Option TokenClaims :=
  if isBlacklisted bl tok now then none
  else
    match parse tok with
    | none => none
    | some c => if c.nbf ≤ now ∧ now < c.exp then some c else none

/-- JWTService.RevokeToken: validate to learn the expiry; an invalid token is
still blacklisted for the configured access lifetime; a valid token is
blacklisted for exactly its remaining time-to-expiry (entry expiring at
claims.exp); a token already past expiry is not blacklisted at all. -/
def revokeToken (bl : List (GoStr × Nat)) (parse : GoStr → Option TokenClaims)
    (now accessExpiry : Nat) (tok : GoStr) : List (GoStr × Nat) :=
  match validateToken bl parse now tok with
  | none => setKey bl tok (now + accessExpiry)
  | some c =>
    if c.exp ≤ now then bl
    else setKey bl tok c.exp

/-! Rate limiter, from internal/middleware/ratelimit.go. Instants are in
nanoseconds; Go's monotonic subtraction `now.Sub(start)` of an earlier start
is non-negative, matching truncated Nat subtraction. -/

/-- One minute, in the nanosecond instants used by the limiter. -/
def oneMinute : Nat := 60000000000

/-- rateLimiterEntry: per-key fixed-window counter state. -/
structure RLEntry where
  count : Int
  windowStart : Nat
  limit : Int
  lastAccess : Nat
deriving DecidableEq, Repr

/-- RateLimiter: per-IP and per-user entry tables plus the default
per-minute limit. -/
structure RateLimiterState where
  ipLimiters : List (GoStr × RLEntry)
  userLimiters : List (Nat × RLEntry)
  defaultLimit : Int
deriving DecidableEq, Repr

/-- RateLimiter.checkIPLimit: reset the window on a missing entry or one
older than a minute (effective limit: the service limit when positive, else
the default); otherwise update last-access and deny at the limit or
increment below it. Returns (allow, updated state). -/
def checkIPLimit (r : RateLimiterState) (ip : GoStr) (serviceLimit : Int) (now : Nat) :
    Bool × RateLimiterState :=
  match lookupKey r.ipLimiters ip with
  | none =>
    let limit := if serviceLimit ≤ 0 then r.defaultLimit else serviceLimit
    (true, { r with ipLimiters := setKey r.ipLimiters ip ⟨1, now, limit, now⟩ })
  | some entry =>
    if now - entry.windowStart > oneMinute then
      let limit := if serviceLimit ≤ 0 then r.defaultLimit else serviceLimit
      (true, { r with ipLimiters := setKey r.ipLimiters ip ⟨1, now, limit, now⟩ })
    else if entry.count ≥ entry.limit then
      (false, { r with ipLimiters := setKey r.ipLimiters ip { entry with lastAccess := now } })
    else
      let entry' : RLEntry := { entry with count := entry.count + 1, lastAccess := now }
      (true, { r with ipLimiters := setKey r.ipLimiters ip entry' })

/-- RateLimiter.checkUserLimit: identical to checkIPLimit on the per-user
table. -/
def checkUserLimit (r : RateLimiterState) (userID : Nat) (serviceLimit : Int) (now : Nat) :
    Bool × RateLimiterState :=
  match lookupKey r.userLimiters userID with
  | none =>
    let limit := if serviceLimit ≤ 0 then r.defaultLimit else serviceLimit
    (true, { r with userLimiters := setKey r.userLimiters userID ⟨1, now, limit, now⟩ })
  | some entry =>
    if now - entry.windowStart > oneMinute then
      let limit := if serviceLimit ≤ 0 then r.defaultLimit else serviceLimit
      (true, { r with userLimiters := setKey r.userLimiters userID ⟨1, now, limit, now⟩ })
    else if entry.count ≥ entry.limit then
      (false, { r with userLimiters := setKey r.userLimiters userID { entry with lastAccess := now } })
    else
      let entry' : RLEntry := { entry with count := entry.count + 1, lastAccess := now }
      (true, { r with userLimiters := setKey r.userLimiters userID entry' })

/-- The fixed-window check as the specification words it (one charged check
on one key): if no entry exists, or more than one minute has elapsed since
window-start, create or reset the entry with count 1, window-start now and
the effective limit (the service limit if positive, otherwise the default)
and allow; else if count has reached the limit, update last-access and deny;
else increment the count, update last-access and allow. Stated on a single
entry; used only to compare against the source functions above. -/
def specFixedWindowCheck (entry : Option RLEntry) (defaultLimit serviceLimit : Int)
    (now : Nat) : Bool × RLEntry :=
  let effective := if 0 < serviceLimit then serviceLimit else defaultLimit
  match entry with
  | none => (true, ⟨1, now, effective, now⟩)
  | some e =>
    if oneMinute < now - e.windowStart then (true, ⟨1, now, effective, now⟩)
    else if e.count ≥ e.limit then (false, { e with lastAccess := now })
    else (true, ({ e with count := e.count + 1, lastAccess := now }))

/-! Service registry, from internal/provider/registry (a segment of
src/unnamed/part_008). -/

/-- registry.ServiceInfo: a persisted definition bound to an in-process
handler (the handler closure type is abstract). -/
structure ServiceInfo (H : Type) where
  definition : ServiceDefinition
  handler : H
deriving DecidableEq, Repr

/-- ServiceRepository.GetByName on the service_definitions table. -/
def svcGetByName : List ServiceDefinition → GoStr → Option ServiceDefinition
  | [], _ => none
  | d :: ds, name => if d.serviceName = name then some d else svcGetByName ds name

/-- The Service Definition RegisterService builds from the provided config
when the store has none: default daily quota 1000, status enabled, policy
flags from the config. -/
def defFromConfig (name : GoStr) (config : ServiceConfig) : ServiceDefinition :=
  { id := 0, serviceName := name, description := config.description,
    defaultLimit := 1000, status := 1,
    allowAnonymous := config.allowAnonymous, rateLimit := config.rateLimit,
    quotaCost := config.quotaCost }

/-- ServiceRegistry.RegisterService: reject a name already registered in
memory; adopt a stored definition unchanged when one exists; otherwise build
a definition from the config (`defFromConfig`) and persist it; bind the
handler. Result: (registry, service_definitions table). -/
def registerService {H : Type} (reg : List (GoStr × ServiceInfo H))
    (svcStore : List ServiceDefinition) (name : GoStr) (handler : H)
    (config : ServiceConfig) :
    Except GoStr (List (GoStr × ServiceInfo H) × List ServiceDefinition) :=
  if (lookupKey reg name).isSome then .error "service already registered in memory".toList
  else
    match svcGetByName svcStore name with
    | some d => .ok (reg ++ [(name, ⟨d, handler⟩)], svcStore)
    | none =>
      .ok (reg ++ [(name, ⟨defFromConfig name config, handler⟩)],
        svcStore ++ [defFromConfig name config])

/-! Identity extraction, from the middleware package (src/unnamed/part_005). -/

/-- The authenticated principal: token claims or a machine-key record. -/
inductive Principal where
  | jwtUser (claims : TokenClaims)
  | keyUser (rec : APIKeyRec)
deriving DecidableEq, Repr

/-- Outcome of the mandatory AuthMiddleware. -/
inductive AuthResult where
  | authed (p : Principal)
  | unauthorized
  | fault
deriving DecidableEq, Repr

/-- Outcome of OptionalAuthMiddleware (it never aborts on a missing or
invalid credential). -/
inductive OptAuthOutcome where
  | principal (p : Principal)
  | anonymous
  | fault
deriving DecidableEq, Repr

/-- The request fields the provider pipeline reads. `handlerOk` stands for
the registered handler succeeding on the request body (echo: a message field
binds); the handler closures themselves are out of the pipeline model. -/
structure HttpRequest where
  serviceName : GoStr
  authHeader : GoStr
  xApiKey : GoStr
  queryApiKey : GoStr
  clientIP : GoStr
  path : GoStr
  handlerOk : Bool
deriving DecidableEq, Repr

/-- middleware.getAPIKeyFromRequest (src/unnamed/part_005, the version the
wired AuthMiddleware uses): X-API-Key header first, then the api_key query
parameter; it does not inspect the Authorization header. -/
def getAPIKeyFromRequestMW (req : HttpRequest) : GoStr :=
  if req.xApiKey ≠ [] then req.xApiKey
  else if req.queryApiKey ≠ [] then req.queryApiKey
  else []

/-- apikey.getAPIKeyFromRequest (internal/auth/apikey/middleware.go): the
package-local variant that reads the Bearer value of the Authorization
header first, then X-API-Key, then the query parameter. Unused by the wired
AuthMiddleware; embedded for comparison. -/
def getAPIKeyFromRequestPkg (req : HttpRequest) : GoStr :=
  if req.authHeader ≠ [] ∧ req.authHeader.take 7 = "Bearer ".toList then
    req.authHeader.drop 7
  else if req.xApiKey ≠ [] then req.xApiKey
  else if req.queryApiKey ≠ [] then req.queryApiKey
  else []

/-- middleware.AuthMiddleware: try the Bearer value as a token first; on
failure fall back to machine-key validation of
middleware.getAPIKeyFromRequest; reject with 401 when both fail. `jwtV`
stands for JWTService.ValidateToken, `keyV` for
APIKeyService.ValidateAPIKey. -/
def authMiddleware (jwtV : GoStr → Option TokenClaims) (keyV : GoStr → VResult)
    (req : HttpRequest) : AuthResult :=
  let tryKey : AuthResult :=
    let ks := getAPIKeyFromRequestMW req
    if ks ≠ [] then
      match keyV ks with
      | .ok k => .authed (.keyUser k)
      | .err _ => .unauthorized
      | .fault => .fault
    else .unauthorized
  if 7 < req.authHeader.length ∧ req.authHeader.take 7 = "Bearer ".toList then
    match jwtV (req.authHeader.drop 7) with
    | some claims => .authed (.jwtUser claims)
    | none => tryKey
  else tryKey

/-- middleware.OptionalAuthMiddleware: same credential order, but a missing
or invalid credential leaves the request anonymous. -/
def optionalAuthMiddleware (jwtV : GoStr → Option TokenClaims) (keyV : GoStr → VResult)
    (req : HttpRequest) : OptAuthOutcome :=
  let tryKey : OptAuthOutcome :=
    let ks := getAPIKeyFromRequestMW req
    if ks ≠ [] then
      match keyV ks with
      | .ok k => .principal (.keyUser k)
      | .err _ => .anonymous
      | .fault => .fault
    else .anonymous
  if 7 < req.authHeader.length ∧ req.authHeader.take 7 = "Bearer ".toList then
    match jwtV (req.authHeader.drop 7) with
    | some claims => .principal (.jwtUser claims)
    | none => tryKey
  else tryKey

/-! Dispatch pipeline, from internal/provider/router.go. RegisterRoutes
installs, for POST /provider/:service/execute, the chain
serviceAuthMiddleware then logMiddleware then executeServiceHandler, and for
POST /provider/:service/public, optionalAuthMiddleware then logMiddleware
then executePublicServiceHandler. No other middleware is installed on either
group. The asynchronous accounting goroutine spawned by logMiddleware is
modelled as completing before the next request is handled (the claims'
scenarios are sequential). -/

/-- 24 hours, in the instants used for quota reset times. -/
def oneDay : Nat := 86400000000000

/-- middleware.GetCurrentUserID: the token claims' user id when present,
otherwise the machine-key owner's id. -/
def principalUserID : Principal → Nat
  | .jwtUser c => c.userID
  | .keyUser k => k.userID

/-- The APIKey id read back by logMiddleware (0 unless the request was
machine-key authenticated). -/
def principalAPIKeyID : Principal → Nat
  | .jwtUser _ => 0
  | .keyUser k => k.id

/-- executeServiceHandler / executePublicServiceHandler: a handler error
becomes 400 with the invalid-parameters code 1001, success becomes 200 with
code 0. -/
def handlerResponse (req : HttpRequest) : Response :=
  if req.handlerOk then ⟨200, 0⟩ else ⟨400, 1001⟩

/-- The accounting goroutine of logMiddleware: always append the access-log
row; then, when the request was identified (userID > 0) and the service
charges a positive quota cost, look the daily quota up, create it with usage
0 and the definition's default limit when missing, and issue the atomic
usage increment. No admission decision is taken here: nothing is denied. -/
def accounting (w : World) (d : ServiceDefinition) (endpoint : GoStr) (status : Nat)
    (userID apiKeyID : Nat) (now : Nat) : World :=
  let w1 : World :=
    { w with logs := w.logs ++
        [{ apiKeyID := apiKeyID, userID := userID, serviceName := d.serviceName,
           endpoint := endpoint, status := status, cost := d.quotaCost }] }
  if 0 < userID ∧ 0 < d.quotaCost then
    let qs :=
      match quotaLookup w1.quotas userID d.serviceName "daily".toList with
      | some _ => w1.quotas
      | none => w1.quotas ++
          [{ userID := userID, serviceName := d.serviceName, timeWindow := "daily".toList,
             usage := 0, limitValue := d.defaultLimit, resetTime := now + oneDay }]
    { w1 with quotas := quotaIncrement qs userID d.serviceName "daily".toList d.quotaCost }
  else w1

/-- The /provider/:service/execute chain as wired by RegisterRoutes:
resolve the service (404 when unknown, 403 when disabled), authenticate
(mandatory unless the definition allows anonymous, in which case the
optional middleware runs), let the handler produce the response, then run
the accounting task. There is no rate-limit stage and no quota-admission
stage in this chain. -/
def handleExecute {H : Type} (reg : List (GoStr × ServiceInfo H))
    (jwtV : GoStr → Option TokenClaims) (keyV : GoStr → VResult)
    (req : HttpRequest) (now : Nat) (w : World) : Response × World :=
  match lookupKey reg req.serviceName with
  | none => (⟨404, 1004⟩, w)
  | some svc =>
    if svc.definition.status ≠ 1 then (⟨403, 1003⟩, w)
    else
      let run : Option Principal → Response × World := fun popt =>
        let resp := handlerResponse req
        let userID := match popt with | some p => principalUserID p | none => 0
        let apiKeyID := match popt with | some p => principalAPIKeyID p | none => 0
        (resp, accounting w svc.definition req.path resp.status userID apiKeyID now)
      if ¬svc.definition.allowAnonymous then
        match authMiddleware jwtV keyV req with
        | .authed p => run (some p)
        | .unauthorized => (⟨401, 1002⟩, w)
        | .fault => (⟨500, 1005⟩, w)
      else
        match optionalAuthMiddleware jwtV keyV req with
        | .principal p => run (some p)
        | .anonymous => run none
        | .fault => (⟨500, 1005⟩, w)

/-- The /provider/:service/public chain as wired by RegisterRoutes: resolve,
optional authentication (never aborts), handler, accounting. There is no
rate-limit stage in this chain. -/
def handlePublic {H : Type} (reg : List (GoStr × ServiceInfo H))
    (jwtV : GoStr → Option TokenClaims) (keyV : GoStr → VResult)
    (req : HttpRequest) (now : Nat) (w : World) : Response × World :=
  match lookupKey reg req.serviceName with
  | none => (⟨404, 1004⟩, w)
  | some svc =>
    if svc.definition.status ≠ 1 then (⟨403, 1003⟩, w)
    else
      let run : Option Principal → Response × World := fun popt =>
        let resp := handlerResponse req
        let userID := match popt with | some p => principalUserID p | none => 0
        let apiKeyID := match popt with | some p => principalAPIKeyID p | none => 0
        (resp, accounting w svc.definition req.path resp.status userID apiKeyID now)
      match optionalAuthMiddleware jwtV keyV req with
      | .principal p => run (some p)
      | .anonymous => run none
      | .fault => (⟨500, 1005⟩, w)

/-! Concrete fixtures used by the scenario theorems below. -/

/-- True exactly when ValidateAPIKey returned an error (which the middleware
maps to 401 unauthorized). -/
def isErrResult : VResult → Bool
  | .err _ => true
  | _ => false

/-- Quota-exhaustion scenario: the echo definition with default_daily_quota
3, quota_cost 1, enabled, mandatory authentication. -/
def echoDefC1 : ServiceDefinition :=
  { id := 1, serviceName := "echo".toList, description := [], defaultLimit := 3,
    status := 1, allowAnonymous := false, rateLimit := 60, quotaCost := 1 }

/-- Registry holding only the echo service of the quota scenario. -/
def regC1 : List (GoStr × ServiceInfo Unit) := [("echo".toList, ⟨echoDefC1, ()⟩)]

/-- Claims of the authenticated operator (id 7) in the quota scenario. -/
def claimsC1 : TokenClaims :=
  { userID := 7, username := "u".toList, role := "user".toList, iat := 0, exp := 1000, nbf := 0 }

/-- Token verifier of the quota scenario: exactly one valid token. -/
def jwtVC1 : GoStr → Option TokenClaims :=
  fun t => if t = "tok1".toList then some claimsC1 else none

/-- Machine-key validator of the quota scenario: no machine keys exist. -/
def keyVC1 : GoStr → VResult := fun _ => .err []

/-- The authenticated invocation of the quota scenario. -/
def reqC1 : HttpRequest :=
  { serviceName := "echo".toList, authHeader := "Bearer tok1".toList, xApiKey := [],
    queryApiKey := [], clientIP := "1.2.3.4".toList,
    path := "/api/v1/provider/echo/execute".toList, handlerOk := true }

/-- One sequential invocation of the quota scenario. -/
def stepC1 (w : World) : Response × World := handleExecute regC1 jwtVC1 keyVC1 reqC1 5 w

/-- The four sequential invocations of the quota scenario. -/
def c1s1 : Response × World := stepC1 ⟨[], []⟩
def c1s2 : Response × World := stepC1 c1s1.2
def c1s3 : Response × World := stepC1 c1s2.2
def c1s4 : Response × World := stepC1 c1s3.2

/-- Rate-limit scenario: the echo definition with rate_limit 2, anonymous
allowed, enabled. -/
def echoDefC3 : ServiceDefinition :=
  { id := 1, serviceName := "echo".toList, description := [], defaultLimit := 1000,
    status := 1, allowAnonymous := true, rateLimit := 2, quotaCost := 1 }

/-- Registry holding only the echo service of the rate-limit scenario. -/
def regC3 : List (GoStr × ServiceInfo Unit) := [("echo".toList, ⟨echoDefC3, ()⟩)]

/-- Anonymous /public invocation of the rate-limit scenario. -/
def reqC3 : HttpRequest :=
  { serviceName := "echo".toList, authHeader := [], xApiKey := [], queryApiKey := [],
    clientIP := "9.9.9.9".toList, path := "/api/v1/provider/echo/public".toList,
    handlerOk := true }

/-- One anonymous invocation of the rate-limit scenario at instant `t`
(the three instants lie within one second). -/
def stepC3 (t : Nat) (w : World) : Response × World :=
  handlePublic regC3 (fun _ => none) (fun _ => .err []) reqC3 t w

/-- The three invocations of the rate-limit scenario, 0.3 s apart. -/
def c3s1 : Response × World := stepC3 0 ⟨[], []⟩
def c3s2 : Response × World := stepC3 300000000 c3s1.2
def c3s3 : Response × World := stepC3 600000000 c3s2.2

/-- A fresh rate limiter with the default of 60 per minute, used to show
what checkIPLimit would have answered in the rate-limit scenario. -/
def rlC3 : RateLimiterState := { ipLimiters := [], userLimiters := [], defaultLimit := 60 }

/-- The three charged checks the rate limiter would perform for the
rate-limit scenario (same source address, service limit 2). -/
def rlC3s1 : Bool × RateLimiterState := checkIPLimit rlC3 "9.9.9.9".toList 2 0
def rlC3s2 : Bool × RateLimiterState := checkIPLimit rlC3s1.2 "9.9.9.9".toList 2 300000000
def rlC3s3 : Bool × RateLimiterState := checkIPLimit rlC3s2.2 "9.9.9.9".toList 2 600000000

/-- Bearer machine-key scenario: the presented cleartext. -/
def keyPlainC8 : GoStr := "k1k1k1k1".toList

/-- Deterministic cipher instance of the Bearer scenario. -/
def encC8 : GoStr → Option GoStr := fun s => if s = [] then none else some ('E' :: s)

/-- The stored, active, unexpired machine key of the Bearer scenario. -/
def rowC8 : APIKeyRec :=
  { id := 5, userID := 7, keyName := "lbl".toList, apiKey := 'E' :: keyPlainC8,
    status := 1, expiresAt := none }

/-- ValidateAPIKey against the Bearer scenario's store at instant 50. -/
def keyVC8 : GoStr → VResult := validateAPIKey encC8 [rowC8] 50

/-- The Bearer scenario's request: the machine key travels only in the
Authorization header, and it is not a JWT (the token verifier rejects
everything). -/
def reqC8 : HttpRequest :=
  { serviceName := "echo".toList, authHeader := "Bearer ".toList ++ keyPlainC8,
    xApiKey := [], queryApiKey := [], clientIP := "1.2.3.4".toList,
    path := "/api/v1/provider/echo/execute".toList, handlerOk := true }

/-- Cipher instance of the short-key fault scenario. -/
def encC10 : GoStr → Option GoStr := fun s => if s = [] then none else some ('E' :: s)

/-- Cipher instance of the validate-characterization scenario. -/
def encC6 : GoStr → Option GoStr := fun s => if s = [] then none else some ('E' :: s)

/-- Claims of the token of the revocation scenario: issued at 10 with a
100-unit access lifetime. -/
def claimsC7 : TokenClaims :=
  { userID := 1, username := "a".toList, role := "admin".toList, iat := 10, exp := 110, nbf := 10 }

/-- Parser of the revocation scenario: exactly one well-signed token. -/
def parseC7 : GoStr → Option TokenClaims :=
  fun t => if t = "tokr".toList then some claimsC7 else none

/-! Supporting lemmas about the base64 and block-cipher embeddings. -/

theorem b64decChar_encChar : ∀ s, s < 64 → b64decChar (b64encChar s) = some s := by
  decide

theorem b64encChar_ne_pad : ∀ s, s < 64 → b64encChar s ≠ 61 := by
  decide

theorem b64decode_encode : ∀ bs : List Nat, (∀ b ∈ bs, b < 256) →
    b64decode (b64encode bs) = some bs := by
  intro bs
  induction bs using b64encode.induct with
  | case1 =>
    intro _
    rfl
  | case2 b1 =>
    intro h
    have hb1 : b1 < 256 := h b1 (by simp)
    have h1 : b1 / 4 < 64 := by omega
    have h2 : b1 % 4 * 16 < 64 := by omega
    simp only [b64encode, b64decode, b64decChar_encChar _ h1, b64decChar_encChar _ h2]
    simp only [reduceIte, and_self, if_true, Option.some.injEq, List.cons.injEq, and_true]
    omega
  | case3 b1 b2 =>
    intro h
    have hb1 : b1 < 256 := h b1 (by simp)
    have hb2 : b2 < 256 := h b2 (by simp)
    have h1 : b1 / 4 < 64 := by omega
    have h2 : b1 % 4 * 16 + b2 / 16 < 64 := by omega
    have h3 : b2 % 16 * 4 < 64 := by omega
    simp only [b64encode, b64decode, b64decChar_encChar _ h1, b64decChar_encChar _ h2,
      b64decChar_encChar _ h3, b64encChar_ne_pad _ h3]
    simp only [reduceIte, if_true, if_false, Option.some.injEq, List.cons.injEq, and_true]
    constructor <;> omega
  | case4 b1 b2 b3 rest ih =>
    intro h
    have hb1 : b1 < 256 := h b1 (by simp)
    have hb2 : b2 < 256 := h b2 (by simp)
    have hb3 : b3 < 256 := h b3 (by simp)
    have hrest : ∀ b ∈ rest, b < 256 := fun b hb => h b (by simp [hb])
    have h1 : b1 / 4 < 64 := by omega
    have h2 : b1 % 4 * 16 + b2 / 16 < 64 := by omega
    have h3 : b2 % 16 * 4 + b3 / 64 < 64 := by omega
    have h4 : b3 % 64 < 64 := by omega
    simp only [b64encode, b64decode, b64decChar_encChar _ h1, b64decChar_encChar _ h2,
      b64decChar_encChar _ h3, b64decChar_encChar _ h4, b64encChar_ne_pad _ h3,
      b64encChar_ne_pad _ h4, ih hrest]
    simp only [reduceIte, if_false, Option.some.injEq, List.cons.injEq, and_true]
    refine ⟨by omega, by omega, by omega⟩

theorem b64encode_ne_nil : ∀ bs : List Nat, bs ≠ [] → b64encode bs ≠ [] := by
  intro bs h
  rcases bs with _ | ⟨b1, _ | ⟨b2, _ | ⟨b3, rest⟩⟩⟩
  · exact absurd rfl h
  · simp [b64encode]
  · simp [b64encode]
  · simp [b64encode]

theorem chunks16_flatten : ∀ xs : List Nat, (chunks16 xs).flatten = xs := by
  intro xs
  induction xs using chunks16.induct with
  | case1 => simp [chunks16]
  | case2 x xs ih =>
    rw [chunks16]
    simp only [List.flatten_cons, ih, List.take_append_drop]

theorem chunks16_length_all : ∀ xs : List Nat, xs.length % 16 = 0 →
    ∀ c ∈ chunks16 xs, c.length = 16 := by
  intro xs
  induction xs using chunks16.induct with
  | case1 =>
    intro _ c hc
    simp [chunks16] at hc
  | case2 x xs ih =>
    intro hmod c hc
    rw [chunks16] at hc
    have hlen : 16 ≤ (x :: xs).length := by
      simp only [List.length_cons] at hmod ⊢
      omega
    rcases List.mem_cons.mp hc with h | h
    · subst h
      simp only [List.length_take]
      omega
    · refine ih ?_ c h
      simp only [List.length_drop] at *
      omega

theorem chunks16_mem : ∀ xs : List Nat, ∀ c ∈ chunks16 xs, ∀ x ∈ c, x ∈ xs := by
  intro xs
  induction xs using chunks16.induct with
  | case1 =>
    intro c hc
    simp [chunks16] at hc
  | case2 y ys ih =>
    intro c hc x hx
    rw [chunks16] at hc
    rcases List.mem_cons.mp hc with h | h
    · subst h
      exact List.mem_of_mem_take hx
    · exact List.mem_of_mem_drop (ih c h x hx)

theorem flatten_length_16 : ∀ l : List (List Nat), (∀ c ∈ l, c.length = 16) →
    l.flatten.length = 16 * l.length := by
  intro l
  induction l with
  | nil => intro _; rfl
  | cons c l ih =>
    intro h
    have hc : c.length = 16 := h c (by simp)
    have hl : ∀ d ∈ l, d.length = 16 := fun d hd => h d (by simp [hd])
    simp only [List.flatten_cons, List.length_append, List.length_cons, ih hl, hc]
    ring

theorem chunks16_of_flatten : ∀ l : List (List Nat), (∀ c ∈ l, c.length = 16) →
    chunks16 l.flatten = l := by
  intro l
  induction l with
  | nil =>
    intro _
    simp [chunks16]
  | cons c l ih =>
    intro h
    have hc : c.length = 16 := h c (by simp)
    have hl : ∀ d ∈ l, d.length = 16 := fun d hd => h d (by simp [hd])
    rcases c with _ | ⟨y, ys⟩
    · simp at hc
    · show chunks16 ((y :: ys) ++ l.flatten) = (y :: ys) :: l
      rw [List.cons_append, chunks16, ← List.cons_append]
      rw [List.take_left' hc, List.drop_left' hc, ih hl]

theorem pkcs7_mod (p : List Nat) : (pkcs7Padding p 16).length % 16 = 0 := by
  simp only [pkcs7Padding, List.length_append, List.length_replicate]
  omega

theorem pkcs7_ne_nil (p : List Nat) : pkcs7Padding p 16 ≠ [] := by
  have : (pkcs7Padding p 16).length ≠ 0 := by
    simp only [pkcs7Padding, List.length_append, List.length_replicate]
    omega
  intro h
  exact this (by simp [h])

theorem pkcs7_bound (p : List Nat) (hp : ∀ x ∈ p, x < 256) :
    ∀ x ∈ pkcs7Padding p 16, x < 256 := by
  intro x hx
  rcases List.mem_append.mp hx with h | h
  · exact hp x h
  · have := List.eq_of_mem_replicate h
    omega

theorem pkcs7_unpad (p : List Nat) : pkcs7UnPadding (pkcs7Padding p 16) = some p := by
  have hk1 : 1 ≤ 16 - p.length % 16 := by omega
  have hpad : pkcs7Padding p 16 =
      p ++ List.replicate (16 - p.length % 16) (16 - p.length % 16) := rfl
  have hlast : (pkcs7Padding p 16).getLast? = some (16 - p.length % 16) := by
    rw [hpad, List.getLast?_append]
    rcases Nat.exists_eq_add_of_le hk1 with ⟨k, hk⟩
    rw [hk, Nat.add_comm, List.replicate_succ', List.getLast?_concat]
    rfl
  have hlen : (pkcs7Padding p 16).length = p.length + (16 - p.length % 16) := by
    simp [hpad]
  simp only [pkcs7UnPadding, hlast]
  rw [if_neg (by omega)]
  congr 1
  rw [hlen]
  have htake : p.length + (16 - p.length % 16) - (16 - p.length % 16) = p.length := by omega
  rw [htake, hpad]
  exact List.take_left p _

theorem chunks16_ne_nil (xs : List Nat) (h : xs ≠ []) : chunks16 xs ≠ [] := by
  rcases xs with _ | ⟨x, xs⟩
  · exact absurd rfl h
  · rw [chunks16]
    simp

/-! Claim theorems. -/

/-- C2 (amended): the ECB implementation of the machine-key crypto service is
deterministic: Encrypt never reads the entropy source, so two calls with the
same plaintext under the same block cipher (that is, the same configured
secret) return identical ciphertexts. -/
theorem ecbEncrypt_deterministic (E : List Nat → List Nat) (p e1 e2 : List Nat) :
    ecbEncrypt E p e1 = ecbEncrypt E p e2 := rfl

/-- C2 counterexample: the GCM implementation of the same source file is not
deterministic: with the same plaintext and the same secret, two calls that
draw different nonces from the entropy source return different ciphertexts
(gcm.Seal prepends the fresh nonce to the output). -/
theorem gcmEncrypt_not_deterministic :
    gcmEncrypt (fun _ p => p) [1] (List.replicate 12 0) ≠
      gcmEncrypt (fun _ p => p) [1] (List.replicate 12 1) := by
  decide

/-- C9: encrypt-then-decrypt is the identity on any non-empty plaintext, for
the ECB implementation: `E` and `D` stand for the AES block permutation and
its inverse on valid 16-byte blocks. -/
theorem encrypt_then_decrypt_id (E D : List Nat → List Nat)
    (hED : ∀ b, b.length = 16 → (∀ x ∈ b, x < 256) → D (E b) = b)
    (hElen : ∀ b, b.length = 16 → (∀ x ∈ b, x < 256) → (E b).length = 16)
    (hEbound : ∀ b, b.length = 16 → (∀ x ∈ b, x < 256) → ∀ x ∈ E b, x < 256)
    (p entropy : List Nat) (hp : p ≠ []) (hp256 : ∀ x ∈ p, x < 256) :
    (ecbEncrypt E p entropy).bind (ecbDecrypt D) = some p := by
  have hcs_len : ∀ c ∈ chunks16 (pkcs7Padding p 16), c.length = 16 :=
    chunks16_length_all _ (pkcs7_mod p)
  have hcs_bound : ∀ c ∈ chunks16 (pkcs7Padding p 16), ∀ x ∈ c, x < 256 :=
    fun c hc x hx => pkcs7_bound p hp256 x (chunks16_mem _ c hc x hx)
  have hEcs_len : ∀ b ∈ (chunks16 (pkcs7Padding p 16)).map E, b.length = 16 := by
    intro b hb
    rcases List.mem_map.mp hb with ⟨c, hc, rfl⟩
    exact hElen c (hcs_len c hc) (hcs_bound c hc)
  have hbody_len : (ecbEncryptBytes E p).length =
      16 * ((chunks16 (pkcs7Padding p 16)).map E).length :=
    flatten_length_16 _ hEcs_len
  have hbody_bound : ∀ x ∈ ecbEncryptBytes E p, x < 256 := by
    intro x hx
    rcases List.mem_flatten.mp hx with ⟨b, hb, hxb⟩
    rcases List.mem_map.mp hb with ⟨c, hc, rfl⟩
    exact hEbound c (hcs_len c hc) (hcs_bound c hc) x hxb
  have hcs_ne : chunks16 (pkcs7Padding p 16) ≠ [] := chunks16_ne_nil _ (pkcs7_ne_nil p)
  have hbody_ne : ecbEncryptBytes E p ≠ [] := by
    intro h
    have h0 : (ecbEncryptBytes E p).length = 0 := by simp [h]
    rw [hbody_len] at h0
    have : ((chunks16 (pkcs7Padding p 16)).map E).length = 0 := by omega
    exact hcs_ne (List.map_eq_nil_iff.mp (List.length_eq_zero.mp this))
  have hct_ne : b64encode (ecbEncryptBytes E p) ≠ [] := b64encode_ne_nil _ hbody_ne
  have hchunks : chunks16 (ecbEncryptBytes E p) = (chunks16 (pkcs7Padding p 16)).map E :=
    chunks16_of_flatten _ hEcs_len
  have hmapD : ((chunks16 (pkcs7Padding p 16)).map E).map D =
      chunks16 (pkcs7Padding p 16) := by
    rw [List.map_map]
    have hpt : ∀ c ∈ chunks16 (pkcs7Padding p 16), (D ∘ E) c = id c :=
      fun c hc => hED c (hcs_len c hc) (hcs_bound c hc)
    rw [List.map_congr_left hpt, List.map_id]
  have hdec : ecbDecryptBytes D (ecbEncryptBytes E p) = pkcs7Padding p 16 := by
    simp only [ecbDecryptBytes, hchunks, hmapD, chunks16_flatten]
  rw [ecbEncrypt, if_neg hp]
  simp only [Option.some_bind]
  rw [ecbDecrypt, if_neg hct_ne, b64decode_encode _ hbody_bound]
  show (if (ecbEncryptBytes E p).length % 16 = 0 then
      pkcs7UnPadding (ecbDecryptBytes D (ecbEncryptBytes E p))
    else none) = some p
  rw [if_pos (by rw [hbody_len]; omega), hdec, pkcs7_unpad]

/-- Witness for C9 at the identity block cipher and the plaintext [1, 2, 3]. -/
theorem encrypt_then_decrypt_id_witness :
    (ecbEncrypt id [1, 2, 3] []).bind (ecbDecrypt id) = some [1, 2, 3] :=
  encrypt_then_decrypt_id id id (fun _ _ _ => rfl) (fun _ h _ => h)
    (fun _ _ hb => hb) [1, 2, 3] [] (by decide) (by decide)

/-! Supporting lemmas about the association-list helpers. -/

theorem lookupKey_setKey_self {κ β : Type} [DecidableEq κ] :
    ∀ (m : List (κ × β)) (k : κ) (v : β), lookupKey (setKey m k v) k = some v := by
  intro m k v
  induction m with
  | nil => simp [setKey, lookupKey]
  | cons kv rest ih =>
    rcases kv with ⟨k', v'⟩
    by_cases h : k' = k
    · simp [setKey, h, lookupKey]
    · simp [setKey, h, lookupKey, ih]

theorem lookupKey_eq_none_not_mem {κ β : Type} [DecidableEq κ] :
    ∀ (m : List (κ × β)) (k : κ), lookupKey m k = none → k ∉ m.map Prod.fst := by
  intro m k
  induction m with
  | nil => simp
  | cons kv rest ih =>
    rcases kv with ⟨k', v'⟩
    intro h
    by_cases hk : k' = k
    · simp [lookupKey, hk] at h
    · simp only [lookupKey, if_neg hk] at h
      simp only [List.map_cons, List.mem_cons]
      push_neg
      exact ⟨fun hc => hk hc.symm, ih h⟩

theorem nodup_keys_append_single {κ β : Type} [DecidableEq κ]
    (m : List (κ × β)) (k : κ) (v : β) (hnd : (m.map Prod.fst).Nodup)
    (hmem : k ∉ m.map Prod.fst) : ((m ++ [(k, v)]).map Prod.fst).Nodup := by
  rw [List.map_append]
  rw [List.nodup_append]
  refine ⟨hnd, List.nodup_singleton k, ?_⟩
  intro a ha hb
  simp only [List.map_cons, List.map_nil, List.mem_singleton] at hb
  subst hb
  exact hmem ha

/-- The effective limit computed by the source (default when the service
limit is not positive) agrees with the spec's phrasing. -/
theorem effLimit_eq (d s : Int) : (if s ≤ 0 then d else s) = (if 0 < s then s else d) := by
  split_ifs with h1 h2 <;> omega

/-- Extracting the checks from a successful token validation. -/
theorem validateToken_eq_some (bl : List (GoStr × Nat)) (parse : GoStr → Option TokenClaims)
    (now : Nat) (tok : GoStr) (c : TokenClaims)
    (h : validateToken bl parse now tok = some c) :
    parse tok = some c ∧ c.nbf ≤ now ∧ now < c.exp := by
  unfold validateToken at h
  by_cases hb : isBlacklisted bl tok now = true
  · rw [if_pos hb] at h
    exact absurd h (by simp)
  · rw [if_neg hb] at h
    cases hp : parse tok with
    | none =>
      simp only [hp] at h
      exact absurd h (by simp)
    | some c0 =>
      simp only [hp] at h
      by_cases hcond : c0.nbf ≤ now ∧ now < c0.exp
      · rw [if_pos hcond] at h
        cases h
        exact ⟨rfl, hcond⟩
      · rw [if_neg hcond] at h
        exact absurd h (by simp)

/-- C4: each charged check of the rate limiter is exactly the spec's
fixed-window step, on both key namespaces: the result and the updated entry
for the checked key coincide with `specFixedWindowCheck` applied to the
stored entry, the configured default and the service limit. -/
theorem checkLimit_is_fixed_window (r : RateLimiterState) (ip : GoStr) (userID : Nat)
    (serviceLimit : Int) (now : Nat) :
    checkIPLimit r ip serviceLimit now =
      ((specFixedWindowCheck (lookupKey r.ipLimiters ip) r.defaultLimit serviceLimit now).1,
        { r with ipLimiters := setKey r.ipLimiters ip (specFixedWindowCheck (lookupKey r.ipLimiters ip) r.defaultLimit serviceLimit now).2 })
    ∧ checkUserLimit r userID serviceLimit now =
      ((specFixedWindowCheck (lookupKey r.userLimiters userID) r.defaultLimit serviceLimit now).1,
        { r with userLimiters := setKey r.userLimiters userID (specFixedWindowCheck (lookupKey r.userLimiters userID) r.defaultLimit serviceLimit now).2 }) := by
  constructor
  · unfold checkIPLimit specFixedWindowCheck
    cases hl : lookupKey r.ipLimiters ip with
    | none => simp [effLimit_eq]
    | some entry =>
      by_cases hw : now - entry.windowStart > oneMinute
      · simp [hw, effLimit_eq]
      · by_cases hc : entry.count ≥ entry.limit
        · simp [hw, hc]
        · simp [hw, hc]
  · unfold checkUserLimit specFixedWindowCheck
    cases hl : lookupKey r.userLimiters userID with
    | none => simp [effLimit_eq]
    | some entry =>
      by_cases hw : now - entry.windowStart > oneMinute
      · simp [hw, effLimit_eq]
      · by_cases hc : entry.count ≥ entry.limit
        · simp [hw, hc]
        · simp [hw, hc]

/-- C5: register(name, handler, config) rejects a name already registered in
memory; adopts an existing stored definition unchanged; otherwise creates
and persists a definition built from the config; and it preserves the
invariant that no two registered services share a name. -/
theorem registerService_spec {H : Type} (reg : List (GoStr × ServiceInfo H))
    (svcStore : List ServiceDefinition) (name : GoStr) (handler : H)
    (config : ServiceConfig) :
    ((lookupKey reg name).isSome →
      registerService reg svcStore name handler config =
        .error "service already registered in memory".toList)
    ∧ (∀ d, lookupKey reg name = none → svcGetByName svcStore name = some d →
        registerService reg svcStore name handler config =
          .ok (reg ++ [(name, ⟨d, handler⟩)], svcStore))
    ∧ (lookupKey reg name = none → svcGetByName svcStore name = none →
        registerService reg svcStore name handler config =
          .ok (reg ++ [(name, ⟨defFromConfig name config, handler⟩)],
            svcStore ++ [defFromConfig name config]))
    ∧ (∀ reg' svcStore', (reg.map Prod.fst).Nodup →
        registerService reg svcStore name handler config = .ok (reg', svcStore') →
        (reg'.map Prod.fst).Nodup) := by
  refine ⟨?_, ?_, ?_, ?_⟩
  · intro h
    unfold registerService
    rw [if_pos h]
  · intro d hnone hsome
    unfold registerService
    rw [if_neg (by simp [hnone]), hsome]
  · intro hnone hsnone
    unfold registerService
    rw [if_neg (by simp [hnone]), hsnone]
  · intro reg' svcStore' hnd hok
    unfold registerService at hok
    by_cases hmem : (lookupKey reg name).isSome
    · rw [if_pos hmem] at hok
      exact absurd hok (by simp)
    · rw [if_neg hmem] at hok
      have hnone : lookupKey reg name = none := Option.not_isSome_iff_eq_none.mp hmem
      have hnm : name ∉ reg.map Prod.fst := lookupKey_eq_none_not_mem reg name hnone
      cases hgn : svcGetByName svcStore name with
      | some d =>
        rw [hgn] at hok
        simp only [Except.ok.injEq, Prod.mk.injEq] at hok
        rcases hok with ⟨hr, _⟩
        subst hr
        exact nodup_keys_append_single reg name _ hnd hnm
      | none =>
        rw [hgn] at hok
        simp only [Except.ok.injEq, Prod.mk.injEq] at hok
        rcases hok with ⟨hr, _⟩
        subst hr
        exact nodup_keys_append_single reg name _ hnd hnm

/-- Witness for C5 on an empty registry and empty store. -/
theorem registerService_spec_witness :
    registerService ([] : List (GoStr × ServiceInfo Unit)) [] "echo".toList ()
        ⟨true, 60, 1, []⟩ =
      .ok ([("echo".toList, ⟨defFromConfig "echo".toList ⟨true, 60, 1, []⟩, ()⟩)],
        [defFromConfig "echo".toList ⟨true, 60, 1, []⟩]) :=
  (registerService_spec ([] : List (GoStr × ServiceInfo Unit)) []
    "echo".toList () ⟨true, 60, 1, []⟩).2.2.1 rfl rfl

/-- C7: a token passed to revoke verifies as invalid for its entire remaining
time-to-expiry: for a token issued by the service (expiry = issued-at +
access lifetime, not-before = issued-at) and revoked at any instant from
issuance on, every later verification before the expiry fails. -/
theorem revoked_token_stays_invalid (bl : List (GoStr × Nat))
    (parse : GoStr → Option TokenClaims) (tok : GoStr) (c : TokenClaims)
    (t0 t1 accessExpiry : Nat)
    (hc : parse tok = some c)
    (hexp : c.exp = c.iat + accessExpiry)
    (hnbf : c.nbf = c.iat)
    (h0 : c.iat ≤ t0) (h01 : t0 ≤ t1) (h1 : t1 < c.exp) :
    validateToken (revokeToken bl parse t0 accessExpiry tok) parse t1 tok = none := by
  cases hv : validateToken bl parse t0 tok with
  | none =>
    have hrv : revokeToken bl parse t0 accessExpiry tok = setKey bl tok (t0 + accessExpiry) := by
      unfold revokeToken
      simp only [hv]
    have hbl : isBlacklisted (setKey bl tok (t0 + accessExpiry)) tok t1 = true := by
      unfold isBlacklisted
      rw [lookupKey_setKey_self]
      simp only [decide_eq_true_eq]
      omega
    rw [hrv]
    unfold validateToken
    rw [hbl]
    simp
  | some c' =>
    have hpc := (validateToken_eq_some bl parse t0 tok c' hv).1
    have hcc : c' = c := by
      rw [hc] at hpc
      exact (Option.some.inj hpc).symm
    have hce : c'.exp = c.exp := by rw [hcc]
    have hrv : revokeToken bl parse t0 accessExpiry tok = setKey bl tok c'.exp := by
      unfold revokeToken
      simp only [hv]
      rw [if_neg (by omega : ¬ c'.exp ≤ t0)]
    have hbl : isBlacklisted (setKey bl tok c'.exp) tok t1 = true := by
      unfold isBlacklisted
      rw [lookupKey_setKey_self]
      simp only [decide_eq_true_eq]
      omega
    rw [hrv]
    unfold validateToken
    rw [hbl]
    simp

/-- Witness for C7: the scenario token is revoked at 20 and still verifies as
invalid at 60, well before its expiry 110. -/
theorem revoked_token_stays_invalid_witness :
    validateToken (revokeToken [] parseC7 20 100 "tokr".toList) parseC7 60 "tokr".toList = none :=
  revoked_token_stays_invalid [] parseC7 "tokr".toList claimsC7 20 60 100
    (by decide) (by decide) (by decide) (by decide) (by decide) (by decide)

/-- C6 counterexample: the cleartext "abc" was never issued, yet validate
does not report it unauthorized: the debug print's slice keyString[:4] is
out of bounds and the call faults. -/
theorem validate_short_key_not_unauthorized :
    isErrResult (validateAPIKey encC6 [] 0 "abc".toList) = false := by
  decide

/-- C6 (amended): away from the fault hole (presented strings that are empty
or at least 4 characters long), validate fails exactly on the empty
cleartext, on a ciphertext-equality lookup miss (in particular whenever no
stored record's ciphertext matches, which covers every never-issued
cleartext), on a record that is not active, and on a record whose expiry has
passed; an issued, active, unexpired key validates to its stored record with
the cleartext substituted. -/
theorem validateAPIKey_characterization (enc : GoStr → Option GoStr)
    (rows : List APIKeyRec) (now : Nat) :
    (validateAPIKey enc rows now [] = .err "api key is empty".toList)
    ∧ (∀ p ct rec, 4 ≤ p.length → enc p = some ct →
        apiKeyGetByKey rows ct = some rec → rec.status = 1 →
        (∀ t, rec.expiresAt = some t → now ≤ t) →
        validateAPIKey enc rows now p = .ok { rec with apiKey := p })
    ∧ (∀ x ct, 4 ≤ x.length → enc x = some ct →
        apiKeyGetByKey rows ct = none →
        validateAPIKey enc rows now x = .err "not found".toList)
    ∧ (∀ x ct rec, 4 ≤ x.length → enc x = some ct →
        apiKeyGetByKey rows ct = some rec → rec.status ≠ 1 →
        validateAPIKey enc rows now x = .err "not active".toList)
    ∧ (∀ x ct rec t, 4 ≤ x.length → enc x = some ct →
        apiKeyGetByKey rows ct = some rec → rec.status = 1 →
        rec.expiresAt = some t → t < now →
        validateAPIKey enc rows now x = .err "expired".toList) := by
  refine ⟨?_, ?_, ?_, ?_, ?_⟩
  · simp [validateAPIKey]
  · intro p ct rec hlen henc hget hst hexp
    have hne : ¬(p = []) := by
      intro h
      subst h
      simp at hlen
    have hlt : ¬(p.length < 4) := by omega
    unfold validateAPIKey
    rw [if_neg hne, if_neg hlt]
    simp only [henc, hget]
    rw [if_neg (by simp [hst])]
    have hnx : isExpired rec.expiresAt now = false := by
      cases he : rec.expiresAt with
      | none => simp [isExpired]
      | some t =>
        have := hexp t he
        simp [isExpired, he]
        omega
    rw [if_neg (by simp [hnx])]
  · intro x ct hlen henc hget
    have hne : ¬(x = []) := by
      intro h
      subst h
      simp at hlen
    have hlt : ¬(x.length < 4) := by omega
    unfold validateAPIKey
    rw [if_neg hne, if_neg hlt]
    simp only [henc, hget]
  · intro x ct rec hlen henc hget hst
    have hne : ¬(x = []) := by
      intro h
      subst h
      simp at hlen
    have hlt : ¬(x.length < 4) := by omega
    unfold validateAPIKey
    rw [if_neg hne, if_neg hlt]
    simp only [henc, hget]
    rw [if_pos (by simpa using hst)]
  · intro x ct rec t hlen henc hget hst he ht
    have hne : ¬(x = []) := by
      intro h
      subst h
      simp at hlen
    have hlt : ¬(x.length < 4) := by omega
    unfold validateAPIKey
    rw [if_neg hne, if_neg hlt]
    simp only [henc, hget]
    have hx : isExpired rec.expiresAt now = true := by
      simp [isExpired, he, ht]
    rw [if_neg (by simp [hst]), if_pos (by simp [hx])]

/-- Witness for C6: a stored active key validates, and a never-issued
cleartext of valid length is reported unauthorized (lookup miss). -/
theorem validateAPIKey_characterization_witness :
    validateAPIKey encC6 [⟨5, 7, "n".toList, 'E' :: "abcd".toList, 1, none⟩] 50 "abcd".toList =
      .ok ⟨5, 7, "n".toList, "abcd".toList, 1, none⟩
    ∧ validateAPIKey encC6 [⟨5, 7, "n".toList, 'E' :: "abcd".toList, 1, none⟩] 50 "zzzz".toList =
      .err "not found".toList :=
  ⟨(validateAPIKey_characterization encC6 [⟨5, 7, "n".toList, 'E' :: "abcd".toList, 1, none⟩]
      50).2.1 "abcd".toList ('E' :: "abcd".toList) ⟨5, 7, "n".toList, 'E' :: "abcd".toList, 1, none⟩
      (by decide) (by decide) (by decide) (by decide) (by intro t ht; cases ht),
    (validateAPIKey_characterization encC6 [⟨5, 7, "n".toList, 'E' :: "abcd".toList, 1, none⟩]
      50).2.2.1 "zzzz".toList ('E' :: "zzzz".toList) (by decide) (by decide) (by decide)⟩

/-- C10: ValidateAPIKey is not total on its public input domain: the empty
key and keys of length at least 4 return an error or a record, but a
non-empty presented key shorter than 4 characters faults on the
out-of-bounds slice keyString[:4] before the lookup. -/
theorem validateAPIKey_short_key_faults :
    validateAPIKey encC10 [] 0 "ab".toList = .fault
    ∧ validateAPIKey encC10 [] 0 [] = .err "api key is empty".toList
    ∧ validateAPIKey encC10 [] 0 "abcd".toList = .err "not found".toList := by
  decide

/-- C1: the wired /provider/:service/execute chain performs no quota
admission: with default_daily_quota 3 and quota_cost 1 on echo, four
sequential authenticated invocations by operator 7 all return HTTP 200 with
envelope code 0 (the fourth is not denied with the quota-exceeded 403), and
the recorded usage afterwards is 4, not 3. The quota is only touched by the
post-response accounting task, which never denies. -/
theorem quota_admission_missing :
    c1s1.1 = ⟨200, 0⟩ ∧ c1s2.1 = ⟨200, 0⟩ ∧ c1s3.1 = ⟨200, 0⟩ ∧ c1s4.1 = ⟨200, 0⟩
    ∧ (quotaLookup c1s4.2.quotas 7 "echo".toList "daily".toList).map QuotaRec.usage = some 4 := by
  decide

/-- C3: the wired /provider/:service/public chain performs no rate limiting:
with rate_limit 2 on echo, three anonymous invocations from the same source
address within one second all return HTTP 200 with envelope code 0 (none
receives the rate-limit-exceeded 429), although the rate limiter itself,
had it been consulted with the same key and limit, would have denied the
third check. -/
theorem rate_limit_missing_from_pipeline :
    c3s1.1 = ⟨200, 0⟩ ∧ c3s2.1 = ⟨200, 0⟩ ∧ c3s3.1 = ⟨200, 0⟩
    ∧ rlC3s1.1 = true ∧ rlC3s2.1 = true ∧ rlC3s3.1 = false := by
  decide

/-- C8: the mandatory authentication path does not fall through from token
verification to machine-key validation for a key presented as Bearer: the
request carries a valid active machine key only in the Authorization header
(and it is not a JWT), validate would accept that key, the apikey package's
own extractor would have found it, yet the wired middleware rejects the
request as unauthorized because its extractor reads only X-API-Key and
api_key. -/
theorem bearer_machine_key_rejected :
    authMiddleware (fun _ => none) keyVC8 reqC8 = .unauthorized
    ∧ keyVC8 keyPlainC8 = .ok { rowC8 with apiKey := keyPlainC8 }
    ∧ getAPIKeyFromRequestPkg reqC8 = keyPlainC8 := by
  decide

end ApiHub
